import Mathlib

/-!
Verification of the LiveOS ISO builder (imagecustomizerlib) against its
natural-language specification.  The Go source is shallowly embedded: pure
functions become Lean functions, the filesystem-mutating pipeline becomes an
explicit event trace, Go maps become association lists, and machine integers
become `Nat` (the quantities involved are far below 2^64).
-/

namespace LiveOSIso

/-! ## Constants from the source -/

def bootx64Binary : String := "bootx64.efi"

def grubx64Binary : String := "grubx64.efi"

def grubx64NoPfxBinary : String := "grubx64-noprefix.efi"

def isoGrubCfg : String := "grub.cfg"

def pxeGrubCfg : String := "grub-pxe.cfg"

def vmLinuzPfx : String := "vmlinuz-"

/-- `diskutils.KiB` -/
def KiB : Nat := 1024

/-- `diskutils.MiB` -/
def MiB : Nat := 1048576

/-! ## Image name derivation (`getImageNameFromImageBaseName`) -/

structure IsoImageNameInfo where
  tag : String
  releaseVersion : String
  baseName : String
  name : String
deriving DecidableEq

/-- `getImageNameFromImageBaseName`: isoMaker constructs the final image name
as {isoOutputBaseName}{releaseVersion}{imageNameTag}.iso, where release
version and tag are currently empty. -/
def getImageNameFromImageBaseName (isoOutputBaseName : String) : IsoImageNameInfo :=
  let baseName := isoOutputBaseName
  let releaseVersion := ""
  let tag := ""
  { tag := tag, releaseVersion := releaseVersion, baseName := baseName,
    name := baseName ++ releaseVersion ++ tag ++ ".iso" }

/-! ## Saved configuration model

The `SavedConfigs` structure (fields `Iso.KernelCommandLine.ExtraCommandLine`,
`Pxe.IsoImageBaseUrl`, `Pxe.IsoImageFileUrl`, `OS.DracutPackageInfo`) is
declared outside the given sources; its fields are reconstructed from every
use in `updateSavedConfigs` and `updateGrubCfg`, flattened into one record. -/

/-- Modelled from the spec: the detected initrd-generator (dracut)
package-version metadata.  The spec only ever compares it against "a minimum
PXE-support threshold", so the record carries the result of that comparison. -/
structure DracutPackageInformation where
  meetsPxeSupportMinimum : Bool
deriving DecidableEq

structure SavedConfigs where
  extraCommandLine : String := ""
  pxeIsoImageBaseUrl : String := ""
  pxeIsoImageFileUrl : String := ""
  dracutPackageInfo : Option DracutPackageInformation := none
deriving DecidableEq

/-- Modelled from the spec: `verifyDracutPXESupport` (declared outside the
given sources) checks whether the detected initrd-generator package version
satisfies the minimum PXE-support threshold; absent metadata cannot satisfy
the check ("losing this metadata would silently disable future
PXE-capability checks"). -/
def verifyDracutPXESupport (info : Option DracutPackageInformation) : Except String Unit :=
  match info with
  | none => .error "no dracut package information found"
  | some i =>
    if i.meetsPxeSupportMinimum then .ok ()
    else .error "dracut package version does not meet the minimum version required for PXE support"

/-- Drop leading whitespace characters from a character list. -/
def dropLeadingWs : List Char → List Char
  | [] => []
  | c :: cs => if c.isWhitespace then dropLeadingWs cs else c :: cs

/-- `strings.TrimSpace`: remove leading and trailing whitespace.  (Defined by
structural recursion so that concrete instances evaluate in the kernel.) -/
def trimSpace (s : String) : String :=
  ⟨(dropLeadingWs (dropLeadingWs s.data).reverse).reverse⟩

/-- The merge performed by `updateSavedConfigs` (source lines 300-359), with
the on-disk load of the previous run's file (`loadSavedConfigs`, declared
outside the given sources) represented by the `prior` argument: `none` when
no saved-configuration file exists. -/
def updateSavedConfigsMerge (prior : Option SavedConfigs)
    (newKernelArgs newPxeIsoImageBaseUrl newPxeIsoImageFileUrl : String)
    (newDracutPackageInfo : Option DracutPackageInformation) : SavedConfigs :=
  let updated : SavedConfigs :=
    { extraCommandLine := newKernelArgs
      pxeIsoImageBaseUrl := newPxeIsoImageBaseUrl
      pxeIsoImageFileUrl := newPxeIsoImageFileUrl
      dracutPackageInfo := newDracutPackageInfo }
  match prior with
  | none => updated
  | some savedConfigs =>
    let updated :=
      if savedConfigs.extraCommandLine ≠ "" then
        { updated with extraCommandLine :=
            (trimSpace savedConfigs.extraCommandLine ++ " " ++ trimSpace newKernelArgs) }
      else updated
    let updated :=
      if newPxeIsoImageBaseUrl = "" ∧ savedConfigs.pxeIsoImageBaseUrl ≠ "" then
        { updated with pxeIsoImageBaseUrl := savedConfigs.pxeIsoImageBaseUrl }
      else updated
    let updated :=
      if newPxeIsoImageFileUrl = "" ∧ savedConfigs.pxeIsoImageFileUrl ≠ "" then
        { updated with pxeIsoImageFileUrl := savedConfigs.pxeIsoImageFileUrl }
      else updated
    let updated :=
      if newPxeIsoImageBaseUrl ≠ "" then
        { updated with pxeIsoImageFileUrl := "" }
      else updated
    let updated :=
      if newPxeIsoImageFileUrl ≠ "" then
        { updated with pxeIsoImageBaseUrl := "" }
      else updated
    let updated :=
      if newDracutPackageInfo = none then
        { updated with dracutPackageInfo := savedConfigs.dracutPackageInfo }
      else updated
    updated

/-! ## Build pipeline as an event trace

The filesystem-mutating steps of the pipeline are recorded as an ordered
trace of events; a failing pipeline returns the events already performed
together with the error. -/

inductive BuildEvent where
  | persistSavedConfigs
  | writeIsoGrubCfg
  | logPxeInfo
  | writePxeGrubCfg
  | createIso
  | populatePxeArtifactsDir
deriving DecidableEq

/-- Modelled from the spec: `net/url.JoinPath` appends the image name to the
PXE base URL so that base `http://192.168.0.1/liveos` yields
`http://192.168.0.1/liveos/<outputImageBase>`. -/
def urlJoinPath (base elem : String) : String := base ++ "/" ++ elem

/-- `rootValuePxeTemplate = "live:%s"` -/
def rootValuePxeTemplate (url : String) : String := "live:" ++ url

/-- `generatePxeGrubCfg` (source lines 488-526): rejects the two URL forms
being set simultaneously, derives the full image URL from the base URL when
no file URL is given, and writes the PXE grub configuration.  The result
carries the `root=` kernel-argument value installed in the PXE grub.cfg and
the trace of the write. -/
def generatePxeGrubCfgModel (pxeIsoImageBaseUrl pxeIsoImageFileUrl outputImageBase : String) :
    Except String (String × List BuildEvent) :=
  if pxeIsoImageBaseUrl ≠ "" ∧ pxeIsoImageFileUrl ≠ "" then
    .error "cannot set both iso image base url and full image url at the same time."
  else
    let fileUrl :=
      if pxeIsoImageFileUrl = "" then
        urlJoinPath pxeIsoImageBaseUrl (getImageNameFromImageBaseName outputImageBase).name
      else pxeIsoImageFileUrl
    let rootValue := rootValuePxeTemplate fileUrl
    .ok (rootValue, [BuildEvent.writePxeGrubCfg])

/-- `updateGrubCfg` (source lines 361-457).  The pure text rewrites on the
grub.cfg buffer are not modelled (no claim depends on them); what is modelled
is the write of the rewritten ISO grub.cfg, the dracut PXE-capability gate
(informational log and skip on failure), and the derivation of the PXE
grub.cfg.  Returns the event trace and the error, if any. -/
def updateGrubCfgModel (savedConfigs : SavedConfigs) (outputImageBase : String) :
    List BuildEvent × Option String :=
  let events := [BuildEvent.writeIsoGrubCfg]
  match verifyDracutPXESupport savedConfigs.dracutPackageInfo with
  | .error _ => (events ++ [BuildEvent.logPxeInfo], none)
  | .ok _ =>
    match generatePxeGrubCfgModel savedConfigs.pxeIsoImageBaseUrl
        savedConfigs.pxeIsoImageFileUrl outputImageBase with
    | .error e =>
      (events, some ("failed to create grub configuration for PXE booting.\n" ++ e))
    | .ok (_, pxeEvents) => (events ++ pxeEvents, none)

/-- The saved-configuration and grub.cfg steps of `prepareLiveOSDir`
(source lines 776-830): merge and persist the saved configuration, then
rewrite grub.cfg.  `persistSavedConfigs` happens inside `updateSavedConfigs`
(source line 353), before `updateGrubCfg` runs. -/
def prepareLiveOSDirModel (prior : Option SavedConfigs)
    (extraCommandLine pxeIsoImageBaseUrl pxeIsoImageFileUrl : String)
    (dracutInfo : Option DracutPackageInformation) (outputImageBase : String) :
    List BuildEvent × Option String :=
  let merged := updateSavedConfigsMerge prior extraCommandLine pxeIsoImageBaseUrl
    pxeIsoImageFileUrl dracutInfo
  let events := [BuildEvent.persistSavedConfigs]
  let grubResult := updateGrubCfgModel merged outputImageBase
  (events ++ grubResult.1, grubResult.2)

/-- `createIsoImageAndPXEFolder` (source lines 1584-1603): create the ISO,
then, only when a PXE artifacts output directory was requested, re-check the
dracut PXE capability — failing the whole build if the check fails — and
populate the PXE artifacts directory. -/
def createIsoImageAndPXEFolderModel (dracutInfo : Option DracutPackageInformation)
    (outputPXEArtifactsDir : String) : List BuildEvent × Option String :=
  let events := [BuildEvent.createIso]
  if outputPXEArtifactsDir ≠ "" then
    match verifyDracutPXESupport dracutInfo with
    | .error e => (events, some ("cannot generate the PXE artifacts folder.\n" ++ e))
    | .ok _ => (events ++ [BuildEvent.populatePxeArtifactsDir], none)
  else (events, none)

/-- The saved-config / grub.cfg / ISO / PXE-folder portion of
`createLiveOSIsoImage` (source lines 1197-1288) for the full-image path:
prepare the LiveOS directory (which merges and persists the saved
configuration and rewrites grub.cfg), then create the ISO and optionally the
PXE artifacts folder.  `dracutInfo` is the package information detected from
the expanded rootfs. -/
def createLiveOSIsoImageModel (prior : Option SavedConfigs)
    (extraCommandLine pxeIsoImageBaseUrl pxeIsoImageFileUrl : String)
    (dracutInfo : Option DracutPackageInformation)
    (outputImageBase outputPXEArtifactsDir : String) :
    List BuildEvent × Option String :=
  let prep := prepareLiveOSDirModel prior extraCommandLine pxeIsoImageBaseUrl
    pxeIsoImageFileUrl dracutInfo outputImageBase
  match prep.2 with
  | some e => (prep.1, some e)
  | none =>
    let iso := createIsoImageAndPXEFolderModel dracutInfo outputPXEArtifactsDir
    (prep.1 ++ iso.1, iso.2)

/-! ## Disk-size estimation (reverse path) -/

/-- `getSizeOnDiskInBytes` (source lines 1697-1719): `du -s` reports a count
of KiB blocks, which is multiplied by `diskutils.KiB`. -/
def getSizeOnDiskInBytesModel (sizeInKbs : Nat) : Nat := sizeInKbs * KiB

/-- `getDiskSizeEstimateInMBs` (source lines 1744-1754) at the fixed
`expansionSafetyFactor = 1.5`: `sizeInMBs := sizeInBytes/MiB + 1` (integer
division), then `uint64(float64(sizeInMBs) * 1.5)`, i.e. `3*sizeInMBs/2`
truncated toward zero — exact for every realistic size (the float64 product
is exact for all `sizeInMBs < 2^51`). -/
def getDiskSizeEstimateInMBsModel (sizeInBytes : Nat) : Nat :=
  let sizeInMBs := sizeInBytes / MiB + 1
  3 * sizeInMBs / 2

/-- The spec's words, for comparison: the content's on-disk byte size
multiplied by the fixed expansion safety factor 1.5, rounded up to whole
megabytes: `⌈3·bytes / (2·MiB)⌉`. -/
def specDiskSizeEstimateInMBs (sizeInBytes : Nat) : Nat :=
  (3 * sizeInBytes + (2 * MiB - 1)) / (2 * MiB)

/-! ## String and path helpers -/

/-- Does the character list start with the given pattern? -/
def charListStartsWith : List Char → List Char → Bool
  | _, [] => true
  | [], _ :: _ => false
  | c :: cs, d :: ds => c = d && charListStartsWith cs ds

/-- Does the character list contain the given pattern as a contiguous
sub-list?  This is the semantics of an unanchored `regexp.FindStringIndex`
over a literal pattern. -/
def charListContains : List Char → List Char → Bool
  | [], pat => pat.isEmpty
  | c :: cs, pat => charListStartsWith (c :: cs) pat || charListContains cs pat

/-- Substring test on strings. -/
def containsStr (s pat : String) : Bool := charListContains s.data pat.data

/-- `strings.TrimPrefix`: drop the given leading pattern when present. -/
def trimPfxStr (s pat : String) : String :=
  if s.startsWith pat then s.drop pat.length else s

/-- `filepath.Base`: the last element of the path after trailing slashes are
removed; "." for the empty path, "/" when the path is all slashes. -/
def filepathBase (p : String) : String :=
  if p = "" then "."
  else
    match ((p.splitOn "/").filter (fun s => s ≠ "")).getLast? with
    | some x => x
    | none => "/"

/-- `filepath.Dir`: the path with its last element removed ("." when there is
no directory part).  Path cleaning of duplicate slashes is not modelled; the
paths the builder constructs have none. -/
def filepathDir (p : String) : String :=
  match (p.splitOn "/").dropLast with
  | [] => "."
  | ps => String.intercalate "/" ps

/-- `filepath.Join` for the two-argument uses in the builder.  Path cleaning
is not modelled; the paths the builder constructs need none. -/
def filepathJoin (a b : String) : String :=
  if a = "" then b else if b = "" then a else a ++ "/" ++ b

/-! ## Go map model

Go maps `map[string]string` are represented as association lists in
iteration order; assignment replaces the entry with the matching key or
appends a new entry. -/

def mapSet (m : List (String × String)) (k v : String) : List (String × String) :=
  if m.any (fun kv => kv.1 = k) then
    m.map (fun kv => if kv.1 = k then (k, v) else kv)
  else m ++ [(k, v)]

/-! ## Boot-directory classifier (`extractBootDirFiles`) -/

/-- The artifact slots populated by `extractBootDirFiles`; an empty string
means "not found" (the zero value of the Go string fields). -/
structure BootArtifacts where
  bootx64EfiPath : String := ""
  grubx64EfiPath : String := ""
  isoGrubCfgPath : String := ""
  pxeGrubCfgPath : String := ""
  vmlinuzPath : String := ""
  additionalFiles : List (String × String) := []
deriving DecidableEq

/-- The three exclusion regexes of `extractBootDirFiles` (source lines
571-594), matched unanchored as `regexp.FindStringIndex` does:
`/boot/initrd\.img.*`, `/boot/initramfs-.*\.img.*`, and
`/boot/efi/boot/grub2/grub\.cfg`.  The middle pattern holds when some
occurrence of `/boot/initramfs-` is later followed by `.img`; since neither
`/` nor `-` occurs in `.img`, this is equivalent to some later
`splitOn`-fragment containing `.img`. -/
def excludedBootFilePath (sourcePath : String) : Bool :=
  containsStr sourcePath "/boot/initrd.img" ||
  ((sourcePath.splitOn "/boot/initramfs-").drop 1).any (fun part => containsStr part ".img") ||
  containsStr sourcePath "/boot/efi/boot/grub2/grub.cfg"

/-- `containsGrubNoPrefix` (source lines 541-548). -/
def containsGrubNoPfx (filePaths : List String) : Bool :=
  filePaths.any (fun p => filepathBase p = grubx64NoPfxBinary)

structure ClassifierCtx where
  writeableRootfsDir : String
  isoArtifactsDir : String
  usingGrubNoPfx : Bool
deriving DecidableEq

/-- The body of the classification loop of `extractBootDirFiles` (source
lines 603-680) for a single scanned path: excluded files are skipped
outright; otherwise the file is recorded in the matching artifact slot, or —
when no slot matches — in the additional-files map under its target path,
mapped to its ISO-media-relative path. -/
def classifyBootFile (ctx : ClassifierCtx) (a : BootArtifacts) (sourcePath : String) :
    BootArtifacts :=
  if excludedBootFilePath sourcePath then a
  else
    let targetPath := sourcePath.replace ctx.writeableRootfsDir ctx.isoArtifactsDir
    let targetFileName := filepathBase targetPath
    let afterSwitch :=
      if targetFileName = bootx64Binary then
        ({ a with bootx64EfiPath := targetPath }, targetPath, false)
      else if targetFileName = grubx64Binary ∨ targetFileName = grubx64NoPfxBinary then
        ({ a with grubx64EfiPath := targetPath }, targetPath, false)
      else if targetFileName = isoGrubCfg then
        let targetPath :=
          if ctx.usingGrubNoPfx then
            filepathJoin (filepathJoin ctx.isoArtifactsDir "EFI/BOOT") isoGrubCfg
          else targetPath
        let a := { a with isoGrubCfgPath := targetPath }
        let a := { a with pxeGrubCfgPath := filepathJoin (filepathDir a.isoGrubCfgPath) pxeGrubCfg }
        (a, targetPath, false)
      else (a, targetPath, true)
    let afterVmlinuz :=
      if targetFileName.startsWith vmLinuzPfx then
        let targetPath := filepathJoin (filepathDir afterSwitch.2.1) "vmlinuz"
        ({ afterSwitch.1 with vmlinuzPath := targetPath }, targetPath, false)
      else afterSwitch
    let a := afterVmlinuz.1
    let targetPath := afterVmlinuz.2.1
    let scheduleAdditionalFile := afterVmlinuz.2.2
    if scheduleAdditionalFile then
      { a with additionalFiles :=
          mapSet a.additionalFiles targetPath (trimPfxStr targetPath ctx.isoArtifactsDir) }
    else a

/-- The whole classification loop of `extractBootDirFiles` over the scanned
file list. -/
def classifyBootFiles (ctx : ClassifierCtx) (bootFolderFilePaths : List String) : BootArtifacts :=
  bootFolderFilePaths.foldl (classifyBootFile ctx) {}

def shimMissingErrMsg : String :=
  "failed to find the boot efi file (" ++ bootx64Binary ++
  "):\nthis file is provided by the (shim) package"

def grubMissingErrMsg : String :=
  "failed to find the grub efi file (" ++ grubx64Binary ++ " or " ++ grubx64NoPfxBinary ++
  "):\nthis file is provided by either the (grub2-efi-binary) or the (grub2-efi-binary-noprefix) package"

/-- `extractBootDirFiles` (source lines 565-695): classify every scanned
path, then fail when no shim binary or no grub binary was recorded. -/
def extractBootDirFilesModel (writeableRootfsDir isoArtifactsDir : String)
    (bootFolderFilePaths : List String) : Except String BootArtifacts :=
  let ctx : ClassifierCtx :=
    { writeableRootfsDir := writeableRootfsDir, isoArtifactsDir := isoArtifactsDir,
      usingGrubNoPfx := containsGrubNoPfx bootFolderFilePaths }
  let a := classifyBootFiles ctx bootFolderFilePaths
  if a.bootx64EfiPath = "" then .error shimMissingErrMsg
  else if a.grubx64EfiPath = "" then .error grubMissingErrMsg
  else .ok a

/-! ## Builder cleanup (`cleanUp`) -/

/-- One iteration of the `cleanUp` loop body (source lines 116-123):
`removeAll` is the outcome of `os.RemoveAll` on the directory (`none` on
success, the error text on failure); the accumulator carries the directories
attempted so far and the combined error. -/
def cleanUpStep (removeAll : String → Option String)
    (acc : List String × Option String) (d : String) : List String × Option String :=
  let attempted := acc.1 ++ [d]
  match removeAll d with
  | none => (attempted, acc.2)
  | some cleanupErr =>
    match acc.2 with
    | some e => (attempted, some (e ++ ":\nfailed to remove (" ++ d ++ "): " ++ cleanupErr))
    | none => (attempted, some ("failed to clean-up (" ++ d ++ "): " ++ cleanupErr))

/-- `cleanUp` (source lines 113-126): walk `cleanupDirs` from the last
registered entry down to the first, attempting every removal and combining
every failure into the running error.  Returns the attempted directories in
attempt order together with the final error. -/
def cleanUpModel (cleanupDirs : List String) (removeAll : String → Option String) :
    List String × Option String :=
  cleanupDirs.reverse.foldl (cleanUpStep removeAll) ([], none)

/-! ## Carry-over of additional files from an input ISO -/

/-- One iteration of the carry-over loop of `createLiveOSIsoImage` (source
lines 1267-1279): the input entry `kv` is added (Go map assignment) unless
some entry of the current map already maps to the same ISO-media
destination. -/
def carryStep (cur : List (String × String)) (kv : String × String) :
    List (String × String) :=
  if cur.any (fun e => e.2 = kv.2) then cur else mapSet cur kv.1 kv.2

/-- The carry-over loop of `createLiveOSIsoImage` (source lines 1266-1280):
for each (source, ISO-media destination) entry of the input ISO's
additional-files map, in iteration order, add it to the new build's map
unless some entry of the current map already maps to the same destination. -/
def carryOverAdditionalFiles (builderFiles inputFiles : List (String × String)) :
    List (String × String) :=
  inputFiles.foldl carryStep builderFiles

/-! ## Characterization of the saved-configuration merge -/

theorem mergeSome_extra (p : SavedConfigs) (args base file : String)
    (info : Option DracutPackageInformation) :
    (updateSavedConfigsMerge (some p) args base file info).extraCommandLine =
      if p.extraCommandLine ≠ "" then
        trimSpace p.extraCommandLine ++ " " ++ trimSpace args
      else args := by
  simp only [updateSavedConfigsMerge]
  split_ifs <;> simp_all

theorem mergeSome_pxeBase (p : SavedConfigs) (args base file : String)
    (info : Option DracutPackageInformation) :
    (updateSavedConfigsMerge (some p) args base file info).pxeIsoImageBaseUrl =
      if file ≠ "" then ""
      else if base = "" ∧ p.pxeIsoImageBaseUrl ≠ "" then p.pxeIsoImageBaseUrl
      else base := by
  simp only [updateSavedConfigsMerge]
  split_ifs <;> simp_all

theorem mergeSome_pxeFile (p : SavedConfigs) (args base file : String)
    (info : Option DracutPackageInformation) :
    (updateSavedConfigsMerge (some p) args base file info).pxeIsoImageFileUrl =
      if base ≠ "" then ""
      else if file = "" ∧ p.pxeIsoImageFileUrl ≠ "" then p.pxeIsoImageFileUrl
      else file := by
  simp only [updateSavedConfigsMerge]
  split_ifs <;> simp_all

set_option maxHeartbeats 1000000 in
theorem merge_dracut (prior : Option SavedConfigs) (args base file : String)
    (i : DracutPackageInformation) :
    (updateSavedConfigsMerge prior args base file (some i)).dracutPackageInfo = some i := by
  cases prior with
  | none => simp [updateSavedConfigsMerge]
  | some p =>
    simp only [updateSavedConfigsMerge]
    split_ifs <;> simp_all

theorem mergeNone (args base file : String) (info : Option DracutPackageInformation) :
    updateSavedConfigsMerge none args base file info =
      { extraCommandLine := args, pxeIsoImageBaseUrl := base, pxeIsoImageFileUrl := file,
        dracutPackageInfo := info } := rfl

/-! ## Claim C1: PXE URL mutual exclusivity of the merge -/

/-- Claim C1 counterexample: when no prior saved state exists, the
mutual-exclusivity clearing of `updateSavedConfigs` is skipped (it sits
inside the `savedConfigs != nil` branch), so supplying both a non-empty base
URL and a non-empty file URL leaves both non-empty in the merged
configuration — the claimed "at most one non-empty after any merge call,
including no prior state" is false, and neither field was cleared. -/
theorem updateSavedConfigs_firstRun_bothUrls_kept :
    (updateSavedConfigsMerge none "" "http://a" "http://b" none).pxeIsoImageBaseUrl = "http://a" ∧
    (updateSavedConfigsMerge none "" "http://a" "http://b" none).pxeIsoImageFileUrl = "http://b" ∧
    ("http://a" : String) ≠ "" ∧ ("http://b" : String) ≠ "" := by
  refine ⟨rfl, rfl, by decide, by decide⟩

/-- Claim C1 (amended): when a prior saved configuration exists and itself
has at most one of the two PXE URL fields non-empty, the merged
configuration returned by `updateSavedConfigs` has at most one of the two
non-empty, and a non-empty new value for either field always clears the
other; with no prior saved state the new values are stored unchanged. -/
theorem updateSavedConfigs_mutual_exclusivity_with_prior
    (p : SavedConfigs) (args base file : String) (info : Option DracutPackageInformation)
    (hp : p.pxeIsoImageBaseUrl = "" ∨ p.pxeIsoImageFileUrl = "") :
    ((updateSavedConfigsMerge (some p) args base file info).pxeIsoImageBaseUrl = "" ∨
      (updateSavedConfigsMerge (some p) args base file info).pxeIsoImageFileUrl = "") ∧
    (base ≠ "" → (updateSavedConfigsMerge (some p) args base file info).pxeIsoImageFileUrl = "") ∧
    (file ≠ "" → (updateSavedConfigsMerge (some p) args base file info).pxeIsoImageBaseUrl = "") := by
  rw [mergeSome_pxeBase, mergeSome_pxeFile]
  refine ⟨?_, ?_, ?_⟩
  · by_cases hb : base = "" <;> by_cases hf : file = ""
    · rcases hp with hp | hp
      · left; simp [hb, hf, hp]
      · right; simp [hb, hf, hp]
    · left; simp [hf]
    · right; simp [hb]
    · right; simp [hb]
  · intro hb; simp [hb]
  · intro hf; simp [hf]

/-- Claim C1 amended-theorem witness at a concrete prior state. -/
theorem updateSavedConfigs_mutual_exclusivity_with_prior_witness :
    (({ pxeIsoImageBaseUrl := "http://old" } : SavedConfigs).pxeIsoImageBaseUrl = "" ∨
      ({ pxeIsoImageBaseUrl := "http://old" } : SavedConfigs).pxeIsoImageFileUrl = "") ∧
    (((updateSavedConfigsMerge (some { pxeIsoImageBaseUrl := "http://old" }) "x" ""
        "http://f" none).pxeIsoImageBaseUrl = "" ∨
      (updateSavedConfigsMerge (some { pxeIsoImageBaseUrl := "http://old" }) "x" ""
        "http://f" none).pxeIsoImageFileUrl = "") ∧
      (("" : String) ≠ "" → (updateSavedConfigsMerge (some { pxeIsoImageBaseUrl := "http://old" })
        "x" "" "http://f" none).pxeIsoImageFileUrl = "") ∧
      (("http://f" : String) ≠ "" → (updateSavedConfigsMerge
        (some { pxeIsoImageBaseUrl := "http://old" }) "x" "" "http://f"
        none).pxeIsoImageBaseUrl = "")) :=
  ⟨Or.inr rfl,
    updateSavedConfigs_mutual_exclusivity_with_prior
      { pxeIsoImageBaseUrl := "http://old" } "x" "" "http://f" none (Or.inr rfl)⟩

/-! ## Claim C5: kernel extra-arguments concatenation -/

/-- Claim C5 counterexample: with saved extra-args `"a"` and new extra-args
`""`, the merged value is `"a "` — it carries a trailing space, contradicting
the claimed "trimmed of surrounding whitespace (no leading or trailing
space)" for every merge with non-empty saved arguments. -/
theorem merge_extraArgs_trailing_space :
    (updateSavedConfigsMerge (some { extraCommandLine := "a" }) "" "" ""
      none).extraCommandLine = "a " ∧
    trimSpace "a " ≠ "a " := by
  refine ⟨rfl, by decide⟩

/-- Claim C5 (amended): whenever the previously saved extra kernel arguments
are non-empty, the merged value is the saved value and the new value, each
trimmed of its own surrounding whitespace, joined by a single space — the
concatenation itself is not re-trimmed, so a trailing (resp. leading) space
remains when the trimmed new (resp. saved) value is empty.  In particular
saved `"a"` and new `"b"` merge to exactly `"a b"`. -/
theorem merge_extraArgs_concatenation
    (p : SavedConfigs) (args base file : String) (info : Option DracutPackageInformation)
    (hp : p.extraCommandLine ≠ "") :
    (updateSavedConfigsMerge (some p) args base file info).extraCommandLine =
      trimSpace p.extraCommandLine ++ " " ++ trimSpace args := by
  rw [mergeSome_extra]
  simp [hp]

/-- Claim C5 amended-theorem witness: saved `"a"` and new `"b"` merge to
exactly `"a b"`. -/
theorem merge_extraArgs_concatenation_witness :
    ({ extraCommandLine := "a" } : SavedConfigs).extraCommandLine ≠ "" ∧
    (updateSavedConfigsMerge (some { extraCommandLine := "a" }) "b" "" ""
      none).extraCommandLine = "a b" :=
  ⟨by decide,
    (merge_extraArgs_concatenation { extraCommandLine := "a" } "b" "" "" none
      (by decide)).trans (by decide)⟩

/-! ## Claim C4: disk-size estimate for the squashfs-to-writeable path -/

/-- Claim C4 counterexample: for a measured content size of exactly 2 MiB the
code estimates `3*(2+1)/2 = 4` MB, while "content size × 1.5 rounded up to
whole megabytes" is `⌈3 MiB⌉ = 3` MB — the claimed formula does not match
`getDiskSizeEstimateInMBs`. -/
theorem disk_size_estimate_not_ceil :
    getDiskSizeEstimateInMBsModel (2 * MiB) = 4 ∧
    specDiskSizeEstimateInMBs (2 * MiB) = 3 := by
  refine ⟨by decide, by decide⟩

/-- Claim C4 (amended): for a disk-usage measurement of `sizeInKbs` KiB
blocks, the estimated disk size in megabytes equals the measured size
rounded down to whole megabytes plus one, multiplied by the expansion safety
factor 1.5 and truncated to a whole number of megabytes:
`⌊3·(⌊sizeInKbs/1024⌋ + 1)/2⌋`. -/
theorem disk_size_estimate_formula (sizeInKbs : Nat) :
    getDiskSizeEstimateInMBsModel (getSizeOnDiskInBytesModel sizeInKbs) =
      3 * (sizeInKbs / 1024 + 1) / 2 := by
  unfold getDiskSizeEstimateInMBsModel getSizeOnDiskInBytesModel KiB MiB
  have h1 : (1048576 : Nat) = 1024 * 1024 := by norm_num
  rw [h1, ← Nat.div_div_eq_div_mul, Nat.mul_div_cancel _ (by norm_num : (0:Nat) < 1024)]

/-! ## Claim C8: PXE root value derived from the base URL -/

/-- Claim C8: generating the PXE grub configuration with an empty file URL
and a non-empty base URL succeeds and installs a `root=` value equal to
`live:` followed by the base URL joined with the derived image name (the
output base name with `.iso` appended). -/
theorem pxe_root_value_from_base_url (base outBase : String) (hb : base ≠ "") :
    generatePxeGrubCfgModel base "" outBase =
      .ok ("live:" ++ (base ++ "/" ++ (outBase ++ ".iso")), [BuildEvent.writePxeGrubCfg]) := by
  simp [generatePxeGrubCfgModel, urlJoinPath, rootValuePxeTemplate,
    getImageNameFromImageBaseName]

/-- Claim C8 witness: base URL `http://host/liveos` and output base name
`myimage` yield the PXE root value `live:http://host/liveos/myimage.iso`. -/
theorem pxe_root_value_from_base_url_witness :
    ("http://host/liveos" : String) ≠ "" ∧
    generatePxeGrubCfgModel "http://host/liveos" "" "myimage" =
      .ok ("live:http://host/liveos/myimage.iso", [BuildEvent.writePxeGrubCfg]) :=
  ⟨by decide, pxe_root_value_from_base_url "http://host/liveos" "myimage" (by decide)⟩

/-! ## Claim C2: the dracut PXE-capability gap -/

/-- Claim C2 counterexample: in a build where the detected dracut version
fails the PXE-support minimum and a PXE artifacts output directory was
requested, the build fails (`createIsoImageAndPXEFolder` re-checks the
capability and returns an error), contradicting the claimed "the build never
fails for this reason, including builds where a PXE artifacts output
directory was requested". -/
theorem pxe_capability_gap_fatal_with_pxe_dir :
    (createLiveOSIsoImageModel none "" "" "" (some ⟨false⟩) "img" "pxe-dir").2 =
      some ("cannot generate the PXE artifacts folder.\n" ++
        "dracut package version does not meet the minimum version required for PXE support") ∧
    BuildEvent.logPxeInfo ∈
      (createLiveOSIsoImageModel none "" "" "" (some ⟨false⟩) "img" "pxe-dir").1 := by
  refine ⟨rfl, by decide⟩

/-- Claim C2 (amended): when the detected dracut package version does not
satisfy the PXE-support minimum and no PXE artifacts output directory was
requested, the build logs informationally, skips PXE grub-config generation
(no PXE grub.cfg write appears in the trace), and completes without error;
when a PXE artifacts directory is requested the same capability gap is
fatal. -/
theorem pxe_capability_gap_nonfatal_without_pxe_dir
    (prior : Option SavedConfigs) (extra base file outBase : String)
    (i : DracutPackageInformation) (hi : i.meetsPxeSupportMinimum = false) :
    createLiveOSIsoImageModel prior extra base file (some i) outBase "" =
      ([BuildEvent.persistSavedConfigs, BuildEvent.writeIsoGrubCfg, BuildEvent.logPxeInfo,
        BuildEvent.createIso], none) ∧
    BuildEvent.writePxeGrubCfg ∉
      (createLiveOSIsoImageModel prior extra base file (some i) outBase "").1 := by
  have hd := merge_dracut prior extra base file i
  have hmain : createLiveOSIsoImageModel prior extra base file (some i) outBase "" =
      ([BuildEvent.persistSavedConfigs, BuildEvent.writeIsoGrubCfg, BuildEvent.logPxeInfo,
        BuildEvent.createIso], none) := by
    unfold createLiveOSIsoImageModel prepareLiveOSDirModel updateGrubCfgModel
      createIsoImageAndPXEFolderModel
    simp [hd, verifyDracutPXESupport, hi]
  refine ⟨hmain, ?_⟩
  rw [hmain]
  decide

/-- Claim C2 amended-theorem witness at a concrete unsupported dracut
version. -/
theorem pxe_capability_gap_nonfatal_without_pxe_dir_witness :
    (DracutPackageInformation.mk false).meetsPxeSupportMinimum = false ∧
    createLiveOSIsoImageModel none "" "" "" (some ⟨false⟩) "img" "" =
      ([BuildEvent.persistSavedConfigs, BuildEvent.writeIsoGrubCfg, BuildEvent.logPxeInfo,
        BuildEvent.createIso], none) :=
  ⟨rfl, (pxe_capability_gap_nonfatal_without_pxe_dir none "" "" "" "img" ⟨false⟩ rfl).1⟩

/-! ## Claim C3: rejection of conflicting PXE URL forms -/

/-- Claim C3 counterexample: supplying both PXE URL forms (no prior saved
state, dracut supporting PXE) does make the build fail with the
configuration-conflict error, but only after the saved-configuration file
has been persisted and the rewritten ISO grub.cfg written: both mutation
events precede the rejection, contradicting "this rejection occurs before
any filesystem mutation". -/
theorem pxe_conflict_after_mutations :
    (createLiveOSIsoImageModel none "" "http://a" "http://b" (some ⟨true⟩) "img" "").2 =
      some ("failed to create grub configuration for PXE booting.\n" ++
        "cannot set both iso image base url and full image url at the same time.") ∧
    (createLiveOSIsoImageModel none "" "http://a" "http://b" (some ⟨true⟩) "img" "").1 =
      [BuildEvent.persistSavedConfigs, BuildEvent.writeIsoGrubCfg] := by
  refine ⟨rfl, rfl⟩

/-- Claim C3 (amended): if the user supplies both PXE URL forms in the same
run, then, when no prior saved configuration exists and the dracut
PXE-support check passes, the build fails with the configuration-conflict
error — but only after the saved-configuration file has been persisted and
the rewritten ISO grub.cfg written; and when a prior saved configuration
exists, the merge clears both URL fields and no conflict is reported at
all (the build proceeds without error). -/
theorem pxe_conflict_rejection_characterization
    (extra base file outBase pxeDir : String)
    (i : DracutPackageInformation) (hi : i.meetsPxeSupportMinimum = true)
    (hb : base ≠ "") (hf : file ≠ "") :
    createLiveOSIsoImageModel none extra base file (some i) outBase pxeDir =
      ([BuildEvent.persistSavedConfigs, BuildEvent.writeIsoGrubCfg],
        some ("failed to create grub configuration for PXE booting.\n" ++
          "cannot set both iso image base url and full image url at the same time.")) ∧
    (∀ p : SavedConfigs,
      (createLiveOSIsoImageModel (some p) extra base file (some i) outBase "").2 = none) := by
  constructor
  · unfold createLiveOSIsoImageModel prepareLiveOSDirModel updateGrubCfgModel
    rw [mergeNone]
    simp [verifyDracutPXESupport, hi, generatePxeGrubCfgModel, hb, hf]
  · intro p
    have hbase := mergeSome_pxeBase p extra base file (some i)
    have hfile := mergeSome_pxeFile p extra base file (some i)
    have hd := merge_dracut (some p) extra base file i
    unfold createLiveOSIsoImageModel prepareLiveOSDirModel updateGrubCfgModel
      createIsoImageAndPXEFolderModel
    simp [hbase, hfile, hd, verifyDracutPXESupport, hi, generatePxeGrubCfgModel, hb, hf]

/-! ## Claim C9: cleanup order and error combination -/

theorem cleanUpFold_attempted (l : List String) (removeAll : String → Option String)
    (acc : List String × Option String) :
    (l.foldl (cleanUpStep removeAll) acc).1 = acc.1 ++ l := by
  induction l generalizing acc with
  | nil => simp
  | cons d t ih =>
    obtain ⟨att, err⟩ := acc
    rw [List.foldl_cons, ih]
    unfold cleanUpStep
    cases removeAll d with
    | none => simp
    | some e => cases err <;> simp

theorem cleanUpFold_err_extends (l : List String) (removeAll : String → Option String)
    (att : List String) (m : String) :
    ∃ m2, (l.foldl (cleanUpStep removeAll) (att, some m)).2 = some m2 ∧ m.data <+: m2.data := by
  induction l generalizing att m with
  | nil => exact ⟨m, rfl, List.prefix_rfl⟩
  | cons d t ih =>
    rw [List.foldl_cons]
    unfold cleanUpStep
    cases removeAll d with
    | none => exact ih (att ++ [d]) m
    | some ce =>
      obtain ⟨m2, h1, h2⟩ := ih (att ++ [d]) (m ++ ":\nfailed to remove (" ++ d ++ "): " ++ ce)
      refine ⟨m2, h1, List.IsPrefix.trans ?_ h2⟩
      simp only [String.data_append]
      exact (List.prefix_append _ _).trans ((List.prefix_append _ _).trans
        ((List.prefix_append _ _).trans (List.prefix_append _ _)))

theorem cleanUpFold_failure_recorded (l : List String) (removeAll : String → Option String)
    (att : List String) (err : Option String) (d e : String)
    (hd : d ∈ l) (he : removeAll d = some e) :
    ∃ m, (l.foldl (cleanUpStep removeAll) (att, err)).2 = some m ∧
      ("(" ++ d ++ "): " ++ e).data <:+: m.data := by
  induction l generalizing att err with
  | nil => cases hd
  | cons x t ih =>
    rw [List.foldl_cons]
    rcases List.mem_cons.mp hd with rfl | hdt
    · unfold cleanUpStep
      rw [he]
      cases err with
      | none =>
        obtain ⟨m2, h1, h2⟩ := cleanUpFold_err_extends t removeAll (att ++ [d])
          ("failed to clean-up (" ++ d ++ "): " ++ e)
        refine ⟨m2, h1, List.IsInfix.trans ?_ h2.isInfix⟩
        have hmsg : ("failed to clean-up (" ++ d ++ "): " ++ e).data =
            ("failed to clean-up " : String).data ++ ("(" ++ d ++ "): " ++ e).data := by
          simp [String.data_append, List.append_assoc]
        rw [hmsg]
        exact (List.suffix_append _ _).isInfix
      | some m =>
        obtain ⟨m2, h1, h2⟩ := cleanUpFold_err_extends t removeAll (att ++ [d])
          (m ++ ":\nfailed to remove (" ++ d ++ "): " ++ e)
        refine ⟨m2, h1, List.IsInfix.trans ?_ h2.isInfix⟩
        have hmsg : (m ++ ":\nfailed to remove (" ++ d ++ "): " ++ e).data =
            (m.data ++ (":\nfailed to remove " : String).data) ++
              ("(" ++ d ++ "): " ++ e).data := by
          simp [String.data_append, List.append_assoc]
        rw [hmsg]
        exact (List.suffix_append _ _).isInfix
    · unfold cleanUpStep
      cases removeAll x with
      | none => exact ih (att ++ [x]) err hdt
      | some ce => cases err <;> exact ih (att ++ [x]) _ hdt

/-- Claim C9: `cleanUp` attempts the registered cleanup directories in
reverse registration order — every registered directory is attempted, the
most recently registered first, regardless of earlier failures — and every
removal failure is recorded (directory name and error) inside the single
combined error it returns, so no failure is swallowed. -/
theorem cleanUp_reverse_order_and_combines_errors
    (cleanupDirs : List String) (removeAll : String → Option String) :
    (cleanUpModel cleanupDirs removeAll).1 = cleanupDirs.reverse ∧
    (∀ d e, d ∈ cleanupDirs → removeAll d = some e →
      ∃ m, (cleanUpModel cleanupDirs removeAll).2 = some m ∧
        ("(" ++ d ++ "): " ++ e).data <:+: m.data) := by
  constructor
  · exact (cleanUpFold_attempted cleanupDirs.reverse removeAll ([], none)).trans
      (List.nil_append _)
  · intro d e hd he
    exact cleanUpFold_failure_recorded cleanupDirs.reverse removeAll [] none d e
      (List.mem_reverse.mpr hd) he

/-- Claim C9 witness on a concrete two-directory cleanup where both removals
fail. -/
theorem cleanUp_reverse_order_and_combines_errors_witness :
    (cleanUpModel ["a", "b"] (fun d => if d = "a" then some "ea" else some "eb")).1 =
      ["b", "a"] ∧
    (∃ m, (cleanUpModel ["a", "b"] (fun d => if d = "a" then some "ea" else some "eb")).2 =
      some m ∧ ("(" ++ "a" ++ "): " ++ "ea").data <:+: m.data) := by
  have h := cleanUp_reverse_order_and_combines_errors ["a", "b"]
    (fun d => if d = "a" then some "ea" else some "eb")
  exact ⟨h.1, h.2 "a" "ea" (by decide) (by decide)⟩

/-- Claim C3 amended-theorem witness at concrete conflicting URLs. -/
theorem pxe_conflict_rejection_characterization_witness :
    (DracutPackageInformation.mk true).meetsPxeSupportMinimum = true ∧
    ("http://a" : String) ≠ "" ∧ ("http://b" : String) ≠ "" ∧
    createLiveOSIsoImageModel none "x" "http://a" "http://b" (some ⟨true⟩) "img" "d" =
      ([BuildEvent.persistSavedConfigs, BuildEvent.writeIsoGrubCfg],
        some ("failed to create grub configuration for PXE booting.\n" ++
          "cannot set both iso image base url and full image url at the same time.")) :=
  ⟨rfl, by decide, by decide,
    (pxe_conflict_rejection_characterization "x" "http://a" "http://b" "img" "d" ⟨true⟩
      rfl (by decide) (by decide)).1⟩

/-! ## Claim C7: pattern-excluded /boot files never reach the ISO -/

theorem classifyBootFile_excluded (ctx : ClassifierCtx) (a : BootArtifacts) (p : String)
    (hp : excludedBootFilePath p = true) : classifyBootFile ctx a p = a := by
  simp [classifyBootFile, hp]

/-- Claim C7: classifying a scanned /boot file whose path matches one of the
exclusion patterns (an existing initrd image `/boot/initrd.img*`, an
initramfs image `/boot/initramfs-*.img*`, or the boot-partition redirect
grub config `/boot/efi/boot/grub2/grub.cfg`) leaves the classifier state
unchanged — the file lands in no artifact slot and not in the
additional-files map — and classifying any scan list is the same as
classifying it with every pattern-matched file removed. -/
theorem excluded_boot_files_never_recorded (ctx : ClassifierCtx) :
    (∀ (a : BootArtifacts) (p : String), excludedBootFilePath p = true →
      classifyBootFile ctx a p = a) ∧
    (∀ files : List String,
      classifyBootFiles ctx files =
        classifyBootFiles ctx (files.filter (fun p => !(excludedBootFilePath p)))) := by
  constructor
  · exact fun a p hp => classifyBootFile_excluded ctx a p hp
  · intro files
    unfold classifyBootFiles
    generalize ({} : BootArtifacts) = a
    induction files generalizing a with
    | nil => rfl
    | cons p t ih =>
      by_cases hp : excludedBootFilePath p = true
      · rw [List.foldl_cons, classifyBootFile_excluded ctx a p hp, List.filter_cons,
          if_neg (by simp [hp])]
        exact ih a
      · rw [List.foldl_cons, List.filter_cons, if_pos (by simp [hp]), List.foldl_cons]
        exact ih (classifyBootFile ctx a p)

/-- Claim C7 witness: a concrete excluded initrd image is not recorded. -/
theorem excluded_boot_files_never_recorded_witness :
    excludedBootFilePath "/rootfs/boot/initrd.img" = true ∧
    classifyBootFile ⟨"/rootfs", "/art", false⟩ {} "/rootfs/boot/initrd.img" = {} ∧
    classifyBootFiles ⟨"/rootfs", "/art", false⟩ ["/rootfs/boot/initrd.img"] =
      classifyBootFiles ⟨"/rootfs", "/art", false⟩
        (["/rootfs/boot/initrd.img"].filter (fun p => !(excludedBootFilePath p))) :=
  ⟨by decide,
    (excluded_boot_files_never_recorded ⟨"/rootfs", "/art", false⟩).1 {}
      "/rootfs/boot/initrd.img" (by decide),
    (excluded_boot_files_never_recorded ⟨"/rootfs", "/art", false⟩).2
      ["/rootfs/boot/initrd.img"]⟩

/-! ## Claim C6: missing shim or grub binary is a named fatal error -/

set_option maxRecDepth 40000 in
/-- Claim C6: if after classification of the scanned /boot file list no shim
binary (bootx64.efi) was recorded, `extractBootDirFiles` fails with the shim
error, whose message names the missing file and its providing package
(shim); if a shim was recorded but no grub binary (grubx64.efi or
grubx64-noprefix.efi) was, it fails with the grub error, whose message names
both candidate files and both providing packages (grub2-efi-binary,
grub2-efi-binary-noprefix). -/
theorem extractBootDirFiles_missing_binary_error
    (rootDir artDir : String) (files : List String) :
    ((classifyBootFiles ⟨rootDir, artDir, containsGrubNoPfx files⟩ files).bootx64EfiPath = "" →
      extractBootDirFilesModel rootDir artDir files = .error shimMissingErrMsg) ∧
    ((classifyBootFiles ⟨rootDir, artDir, containsGrubNoPfx files⟩ files).bootx64EfiPath ≠ "" →
      (classifyBootFiles ⟨rootDir, artDir, containsGrubNoPfx files⟩ files).grubx64EfiPath = "" →
      extractBootDirFilesModel rootDir artDir files = .error grubMissingErrMsg) ∧
    (bootx64Binary.data <:+: shimMissingErrMsg.data ∧
      ("(shim)" : String).data <:+: shimMissingErrMsg.data) ∧
    (grubx64Binary.data <:+: grubMissingErrMsg.data ∧
      grubx64NoPfxBinary.data <:+: grubMissingErrMsg.data ∧
      ("(grub2-efi-binary)" : String).data <:+: grubMissingErrMsg.data ∧
      ("(grub2-efi-binary-noprefix)" : String).data <:+: grubMissingErrMsg.data) := by
  refine ⟨?_, ?_, ⟨by decide, by decide⟩, by decide, by decide, by decide, by decide⟩
  · intro h
    simp [extractBootDirFilesModel, h]
  · intro h1 h2
    simp [extractBootDirFilesModel, h1, h2]

/-- Claim C6 witness: an empty scan (no shim present) produces the shim
error. -/
theorem extractBootDirFiles_missing_binary_error_witness :
    (classifyBootFiles ⟨"/rootfs", "/art", containsGrubNoPfx []⟩ []).bootx64EfiPath = "" ∧
    extractBootDirFilesModel "/rootfs" "/art" [] = .error shimMissingErrMsg :=
  ⟨rfl, (extractBootDirFiles_missing_binary_error "/rootfs" "/art" []).1 rfl⟩

/-! ## Claim C10: carry-over of input-ISO additional files -/

theorem mapSet_mem (m : List (String × String)) (k v : String) (kv : String × String)
    (h : kv ∈ mapSet m k v) : kv ∈ m ∨ kv = (k, v) := by
  unfold mapSet at h
  split at h
  · obtain ⟨orig, horig, heq⟩ := List.mem_map.mp h
    by_cases hk : orig.1 = k
    · right
      simp only [if_pos hk] at heq
      exact heq.symm
    · left
      simp only [if_neg hk] at heq
      exact heq ▸ horig
  · rcases List.mem_append.mp h with h1 | h1
    · exact Or.inl h1
    · right
      simpa using h1

theorem mapSet_eq_append (m : List (String × String)) (k v : String)
    (hk : ∀ kv ∈ m, kv.1 ≠ k) : mapSet m k v = m ++ [(k, v)] := by
  have hany : ¬ ((m.any fun kv => kv.1 = k) = true) := by
    simp only [List.any_eq_true, decide_eq_true_eq]
    rintro ⟨kv, hkv, hk1⟩
    exact hk kv hkv hk1
  unfold mapSet
  rw [if_neg hany]

theorem carryStep_key_sub (cur : List (String × String)) (x y : String × String)
    (hy : y ∈ carryStep cur x) : y ∈ cur ∨ y = x := by
  unfold carryStep at hy
  split at hy
  · exact Or.inl hy
  · rcases mapSet_mem cur x.1 x.2 y hy with h | h
    · exact Or.inl h
    · exact Or.inr h

theorem carryStep_disj_preserved (t cur : List (String × String)) (x : String × String)
    (hdisj : ∀ z ∈ x :: t, ∀ y ∈ cur, z.1 ≠ y.1)
    (hx : x.1 ∉ t.map Prod.fst) :
    ∀ z ∈ t, ∀ y ∈ carryStep cur x, z.1 ≠ y.1 := by
  intro z hz y hy
  rcases carryStep_key_sub cur x y hy with h | h
  · exact hdisj z (List.mem_cons_of_mem _ hz) y h
  · rw [h]
    intro hzx
    exact hx (hzx ▸ List.mem_map.mpr ⟨z, hz, rfl⟩)

theorem carryFold_superset (inp : List (String × String)) :
    ∀ (cur : List (String × String)) (kv : String × String),
      kv ∈ inp.foldl carryStep cur → kv ∈ cur ∨ kv ∈ inp := by
  induction inp with
  | nil => exact fun cur kv h => Or.inl h
  | cons x t ih =>
    intro cur kv h
    rw [List.foldl_cons] at h
    rcases ih (carryStep cur x) kv h with hc | ht
    · rcases carryStep_key_sub cur x kv hc with h1 | h1
      · exact Or.inl h1
      · right
        rw [h1]
        exact List.mem_cons_self x t
    · exact Or.inr (List.mem_cons_of_mem _ ht)

theorem carryFold_mono (inp : List (String × String)) :
    ∀ (cur : List (String × String)),
      (∀ x ∈ inp, ∀ y ∈ cur, x.1 ≠ y.1) →
      (inp.map Prod.fst).Nodup →
      ∀ kv ∈ cur, kv ∈ inp.foldl carryStep cur := by
  induction inp with
  | nil => exact fun cur _ _ kv hkv => hkv
  | cons x t ih =>
    intro cur hdisj hnodup kv hkv
    simp only [List.map_cons, List.nodup_cons] at hnodup
    rw [List.foldl_cons]
    refine ih (carryStep cur x) (carryStep_disj_preserved t cur x hdisj hnodup.1)
      hnodup.2 kv ?_
    unfold carryStep
    split
    · exact hkv
    · rw [mapSet_eq_append cur x.1 x.2
        (fun y hy => Ne.symm (hdisj x (List.mem_cons_self x t) y hy))]
      exact List.mem_append_left _ hkv

theorem carryFold_fresh (inp : List (String × String)) :
    ∀ (cur builder : List (String × String)),
      (∀ x ∈ inp, ∀ y ∈ cur, x.1 ≠ y.1) →
      (inp.map Prod.fst).Nodup →
      (∀ kv ∈ builder, kv ∈ cur) →
      (∀ kv ∈ cur, kv ∉ builder → kv.2 ∉ builder.map Prod.snd) →
      ∀ kv ∈ inp.foldl carryStep cur, kv ∉ builder → kv.2 ∉ builder.map Prod.snd := by
  induction inp with
  | nil => exact fun cur builder _ _ _ hfresh kv hkv hnb => hfresh kv hkv hnb
  | cons x t ih =>
    intro cur builder hdisj hnodup hsub hfresh kv hkv hnb
    simp only [List.map_cons, List.nodup_cons] at hnodup
    rw [List.foldl_cons] at hkv
    refine ih (carryStep cur x) builder
      (carryStep_disj_preserved t cur x hdisj hnodup.1) hnodup.2 ?_ ?_ kv hkv hnb
    · intro b hb
      unfold carryStep
      split
      · exact hsub b hb
      · rw [mapSet_eq_append cur x.1 x.2
          (fun y hy => Ne.symm (hdisj x (List.mem_cons_self x t) y hy))]
        exact List.mem_append_left _ (hsub b hb)
    · intro z hz hznb
      rcases carryStep_key_sub cur x z hz with h | h
      · exact hfresh z h hznb
      · subst h
        unfold carryStep at hz
        split at hz
        · exact hfresh z hz hznb
        · intro hzval
          obtain ⟨b, hb, hbval⟩ := List.mem_map.mp hzval
          rename_i hnoval
          apply hnoval
          simp only [List.any_eq_true, decide_eq_true_eq]
          exact ⟨b, hsub b hb, hbval⟩

theorem carryFold_added_iff (inp : List (String × String)) :
    ∀ (cur : List (String × String)),
      (∀ x ∈ inp, ∀ y ∈ cur, x.1 ≠ y.1) →
      (inp.map Prod.fst).Nodup →
      ∀ (i : Nat) (hi : i < inp.length),
        (inp.get ⟨i, hi⟩ ∈ inp.foldl carryStep cur ↔
          ¬ ∃ kv ∈ (inp.take i).foldl carryStep cur, kv.2 = (inp.get ⟨i, hi⟩).2) := by
  induction inp with
  | nil => exact fun cur _ _ i hi => absurd hi (Nat.not_lt_zero i)
  | cons x t ih =>
    intro cur hdisj hnodup i hi
    simp only [List.map_cons, List.nodup_cons] at hnodup
    cases i with
    | zero =>
      simp only [List.get_cons_zero, List.take_zero, List.foldl_nil, List.foldl_cons]
      constructor
      · intro hmem hex
        obtain ⟨kv0, hkv0, hv0⟩ := hex
        have hstep : carryStep cur x = cur := by
          unfold carryStep
          rw [if_pos]
          simp only [List.any_eq_true, decide_eq_true_eq]
          exact ⟨kv0, hkv0, hv0⟩
        rw [hstep] at hmem
        rcases carryFold_superset t cur x hmem with hc | ht
        · exact absurd rfl (hdisj x (List.mem_cons_self x t) x hc)
        · exact absurd (List.mem_map.mpr ⟨x, ht, rfl⟩) hnodup.1
      · intro hnex
        have hstep : carryStep cur x = cur ++ [x] := by
          have hany : ¬ ((cur.any fun e => e.2 = x.2) = true) := by
            simp only [List.any_eq_true, decide_eq_true_eq]
            exact hnex
          unfold carryStep
          rw [if_neg hany, mapSet_eq_append cur x.1 x.2
            (fun y hy => Ne.symm (hdisj x (List.mem_cons_self x t) y hy))]
        rw [hstep]
        refine carryFold_mono t (cur ++ [x]) ?_ hnodup.2 x (by simp)
        intro z hz y hy
        rcases List.mem_append.mp hy with hy1 | hy1
        · exact hdisj z (List.mem_cons_of_mem _ hz) y hy1
        · have hyx : y = x := by simpa using hy1
          rw [hyx]
          intro hzx
          exact hnodup.1 (hzx ▸ List.mem_map.mpr ⟨z, hz, rfl⟩)
    | succ i =>
      simp only [List.get_cons_succ, List.take_succ_cons, List.foldl_cons]
      exact ih (carryStep cur x) (carryStep_disj_preserved t cur x hdisj hnodup.1)
        hnodup.2 i (Nat.lt_of_succ_lt_succ hi)

/-- Claim C10: carrying the input ISO's additional-files entries into the new
build (with the two maps' source keys disjoint, as they live under different
build directories, and the input map's keys distinct, as Go map keys are):
(1) every entry of the new build's map survives unchanged; (2) every entry of
the result that is not the new build's is an input entry whose ISO-media
destination collides with no destination produced by the current build — so
no such destination is ever overwritten by a carried-over file; and (3) the
i-th input entry ends up in the result exactly when, at the point it is
considered, no entry of the current map already maps to the same ISO-media
destination. -/
theorem carryOver_preserves_and_adds_iff
    (builderFiles inputFiles : List (String × String))
    (hdisj : ∀ kv ∈ inputFiles, ∀ kv2 ∈ builderFiles, kv.1 ≠ kv2.1)
    (hnodup : (inputFiles.map Prod.fst).Nodup) :
    (∀ kv ∈ builderFiles, kv ∈ carryOverAdditionalFiles builderFiles inputFiles) ∧
    (∀ kv ∈ carryOverAdditionalFiles builderFiles inputFiles, kv ∉ builderFiles →
      kv ∈ inputFiles ∧ kv.2 ∉ builderFiles.map Prod.snd) ∧
    (∀ (i : Nat) (hi : i < inputFiles.length),
      (inputFiles.get ⟨i, hi⟩ ∈ carryOverAdditionalFiles builderFiles inputFiles ↔
        ¬ ∃ kv ∈ carryOverAdditionalFiles builderFiles (inputFiles.take i),
          kv.2 = (inputFiles.get ⟨i, hi⟩).2)) := by
  refine ⟨?_, ?_, ?_⟩
  · exact fun kv h => carryFold_mono inputFiles builderFiles hdisj hnodup kv h
  · intro kv h hnb
    refine ⟨?_, ?_⟩
    · rcases carryFold_superset inputFiles builderFiles kv h with h1 | h1
      · exact absurd h1 hnb
      · exact h1
    · exact carryFold_fresh inputFiles builderFiles builderFiles hdisj hnodup
        (fun b hb => hb) (fun b hb hnb2 => absurd hb hnb2) kv h hnb
  · exact fun i hi => carryFold_added_iff inputFiles builderFiles hdisj hnodup i hi

/-- Claim C10 witness: a concrete carry-over where the first input entry
collides on its destination and is dropped while the second is added. -/
theorem carryOver_preserves_and_adds_iff_witness :
    (("b1", "t1") ∈ carryOverAdditionalFiles [("b1", "t1")] [("i1", "t1"), ("i2", "t2")]) ∧
    (([("i1", "t1"), ("i2", "t2")] : List (String × String)).get ⟨0, by decide⟩ ∈
        carryOverAdditionalFiles [("b1", "t1")] [("i1", "t1"), ("i2", "t2")] ↔
      ¬ ∃ kv ∈ carryOverAdditionalFiles [("b1", "t1")]
          (([("i1", "t1"), ("i2", "t2")] : List (String × String)).take 0),
        kv.2 = (([("i1", "t1"), ("i2", "t2")] : List (String × String)).get ⟨0, by decide⟩).2) := by
  have h := carryOver_preserves_and_adds_iff [("b1", "t1")] [("i1", "t1"), ("i2", "t2")]
    (by decide) (by decide)
  exact ⟨h.1 ("b1", "t1") (by decide), h.2.2 0 (by decide)⟩

end LiveOSIso
